import Mathlib

/-!
Shallow embedding of the avatar-resolution core of the Thunderbird avatar
plugin background script (class `EnhancedAvatarCardManager`).

Conventions of the embedding:
* JS strings are Lean `String`s; the addresses exercised are ASCII, where
  `charCodeAt`/`toUpperCase`/`toLowerCase` agree with `Char.toNat`,
  `Char.toUpper`, `Char.toLower`.
* JS 32-bit integer coercion (`x & x`, `<<`) is modelled on `Int` by
  explicit reduction into the interval `[-2^31, 2^31)`.
* A JS `Map` is modelled as an insertion-ordered association list with
  unique keys: `set` on a present key replaces in place, otherwise appends;
  `keys().next().value` is the head.
* Network effects are modelled by an oracle `Network` giving, for each URL,
  whether a metadata probe (HEAD fetch, ok status, image content-type)
  succeeds; every function that probes the network also returns the list of
  URLs it probed, so "no network stage attempted" is "probe list = []".
* Thrown JS exceptions are modelled with `Except JsError`.
* Promise identity is modelled by a counter: each started resolution gets a
  fresh id, and joining callers receive the id of the in-flight promise.
-/

/-- Errors thrown by the modelled code: a `ReferenceError` from evaluating an
unbound identifier, or an explicitly thrown `new Error(msg)`. -/
inductive JsError where
  | referenceError : JsError
  | thrown : String → JsError
deriving DecidableEq, Repr

/-- JS falsiness for a nullable string: `null`/`undefined` (here `none`) and
the empty string are falsy; every other string is truthy. -/
def jsFalsy : Option String → Bool
  | none => true
  | some s => s.isEmpty

/-- JS `String.prototype.toUpperCase` (ASCII fragment). -/
def jsToUpper (s : String) : String :=
  String.mk (s.toList.map Char.toUpper)

/-- JS `String.prototype.toLowerCase` (ASCII fragment). -/
def jsToLower (s : String) : String :=
  String.mk (s.toList.map Char.toLower)

/-- JS `s.charAt(0)`: the one-character string at index 0, or `""` when the
string is empty. -/
def jsCharAt0 (s : String) : String :=
  match s.toList with
  | [] => ""
  | c :: _ => String.singleton c

/-- JS `s.substring(0, n)`: the first `n` characters. -/
def jsSubstring0 (s : String) (n : Nat) : String :=
  String.mk (s.toList.take n)

/-- JS `s.repeat(n)`. -/
def jsRepeat (s : String) (n : Nat) : String :=
  String.join (List.replicate n s)

/-- JS template interpolation of a nullable string: `null` prints as
`"null"`. -/
def jsShow : Option String → String
  | none => "null"
  | some s => s

/-- Reduce an integer into signed 32-bit range, as JS `x & x` / `ToInt32`. -/
def toInt32 (n : Int) : Int :=
  let m := n % 4294967296
  if m < 2147483648 then m else m - 4294967296

/-- One step of the string hash loop shared by `getBusinessColors`,
`simpleHash` and `md5Hash`:
`hash = ((hash << 5) - hash) + char; hash = hash & hash;`. -/
def jsHashStep (hash : Int) (c : Char) : Int :=
  toInt32 (toInt32 (hash * 32) - hash + (c.toNat : Int))

/-- The full string hash loop, starting from `hash = 0`. -/
def jsStringHash (s : String) : Int :=
  s.toList.foldl jsHashStep 0

/-- The base64 alphabet used by `btoa`. -/
def base64Alphabet : List Char :=
  "ABCDEFGHIJKLMNOPQRSTUVWXYZabcdefghijklmnopqrstuvwxyz0123456789+/".toList

/-- Digit `n` (0–63) of the base64 alphabet. -/
def b64Char (n : Nat) : Char :=
  base64Alphabet.getD n 'A'

/-- Base64-encode a list of byte values, three at a time, with `=` padding. -/
def encodeBase64 : List Nat → List Char
  | [] => []
  | [a] =>
      [b64Char (a / 4), b64Char (a % 4 * 16), '=', '=']
  | [a, b] =>
      [b64Char (a / 4), b64Char (a % 4 * 16 + b / 16), b64Char (b % 16 * 4), '=']
  | a :: b :: c :: rest =>
      b64Char (a / 4) :: b64Char (a % 4 * 16 + b / 16) ::
        b64Char (b % 16 * 4 + c / 64) :: b64Char (c % 64) :: encodeBase64 rest

/-- JS `btoa` on Latin-1 text (every avatar SVG produced from an ASCII
address lies in this fragment): base64 of the character codes. -/
def jsBtoa (s : String) : String :=
  String.mk (encodeBase64 (s.toList.map Char.toNat))

/-- One entry of the fixed business palette. -/
structure ColorScheme where
  primary : String
  secondary : String
  border : String
deriving DecidableEq, Repr

/-- The fixed 8-entry palette of `getBusinessColors`. -/
def colorSchemes : List ColorScheme :=
  [ ⟨"#1e40af", "#3b82f6", "#1d4ed8"⟩,
    ⟨"#047857", "#10b981", "#059669"⟩,
    ⟨"#7c2d12", "#ea580c", "#c2410c"⟩,
    ⟨"#581c87", "#8b5cf6", "#7c3aed"⟩,
    ⟨"#374151", "#6b7280", "#4b5563"⟩,
    ⟨"#b91c1c", "#ef4444", "#dc2626"⟩,
    ⟨"#0f766e", "#14b8a6", "#0d9488"⟩,
    ⟨"#92400e", "#f59e0b", "#d97706"⟩ ]

/-- `getBusinessColors(domain)`. The source computes
`const input = domain || email || 'default';` — but `email` is not an
identifier in scope inside `getBusinessColors` (the method's only parameter
is `domain`, and no global `email` exists), so whenever `domain` is falsy
the `||` chain evaluates the unbound identifier `email` and throws a
`ReferenceError`. When `domain` is truthy the chain short-circuits and the
scheme is selected by `Math.abs(hash) % colorSchemes.length`. -/
def getBusinessColors (domain : Option String) : Except JsError ColorScheme :=
  if jsFalsy domain then
    Except.error JsError.referenceError
  else
    let input := jsShow domain
    Except.ok (colorSchemes.getD ((jsStringHash input).natAbs % colorSchemes.length) ⟨"", "", ""⟩)

/-- Helper for JS `String.prototype.split` with a one-character separator:
accumulates the current segment (reversed) while scanning. -/
def jsSplitAux (sep : Char) : List Char → List Char → List String
  | [], acc => [String.mk acc.reverse]
  | c :: rest, acc =>
      if c == sep then String.mk acc.reverse :: jsSplitAux sep rest []
      else jsSplitAux sep rest (c :: acc)

/-- JS `s.split(sep)` for a one-character separator; `"".split(sep) = [""]`,
and adjacent separators produce empty segments, as in JS. -/
def jsSplit (s : String) (sep : Char) : List String :=
  jsSplitAux sep s.toList []

/-- JS `s.includes(c)` for a one-character needle. -/
def jsIncludes (s : String) (c : Char) : Bool :=
  s.toList.contains c

/-- `generateBusinessInitials(email)`: initials from the local part of the
address (the text before the first `@`). -/
def generateBusinessInitials (email : String) : String :=
  let localPart := (jsSplit email '@').headD ""
  if jsIncludes localPart '.' then
    String.join (((jsSplit localPart '.').take 2).map (fun part => jsToUpper (jsCharAt0 part)))
  else if jsIncludes localPart '-' then
    String.join (((jsSplit localPart '-').take 2).map (fun part => jsToUpper (jsCharAt0 part)))
  else if 2 ≤ localPart.length then
    jsToUpper (jsSubstring0 localPart 2)
  else
    jsRepeat (jsToUpper (jsCharAt0 localPart)) 2

/-- `extractDomain(email)`: the source matches `/@([^@]+\.[^@]+)$/`, i.e. the
suffix after the last `@` when that suffix contains a `.` that is neither its
first nor its last character (at least one non-`@` character on each side),
lower-cased; `null` otherwise, and `null` immediately for falsy input. -/
def extractDomain (email : String) : Option String :=
  if email.isEmpty then none
  else
    let cs := email.toList
    if cs.contains '@' then
      let d := (cs.reverse.takeWhile (fun c => c != '@')).reverse
      if d.tail.dropLast.contains '.' then
        some (String.mk (d.map Char.toLower))
      else none
    else none

/-- The settings object of `EnhancedAvatarCardManager`. The recognized keys
are those the code ever reads; `enableFallbackService` is NOT one of them —
the code's third stage is gated on `enableGoogleFavicon` — but a settings
update may still store such a key on the object, so it is carried as an
`Option Bool` that no code path consults. -/
structure Settings where
  maxCacheSize : Nat
  cacheExpiry : Int
  avatarSize : Nat
  enableFavicon : Bool
  enableLogoAPI : Bool
  enableGoogleFavicon : Bool
  enableFallbackService : Option Bool
deriving DecidableEq, Repr

/-- The constructor defaults: 200 entries, 24 h expiry, 32 px avatars, all
three network stages enabled; no `enableFallbackService` key present. -/
def defaultSettings : Settings :=
  { maxCacheSize := 200
    cacheExpiry := 86400000
    avatarSize := 32
    enableFavicon := true
    enableLogoAPI := true
    enableGoogleFavicon := true
    enableFallbackService := none }

/-- A partial settings object passed to `updateSettings`; `none` means the
key is absent from the update. -/
structure SettingsUpdate where
  maxCacheSize : Option Nat := none
  cacheExpiry : Option Int := none
  avatarSize : Option Nat := none
  enableFavicon : Option Bool := none
  enableLogoAPI : Option Bool := none
  enableGoogleFavicon : Option Bool := none
  enableFallbackService : Option Bool := none
deriving DecidableEq, Repr

/-- JS object spread `{ ...settings, ...newSettings }`: keys present in the
update override, absent keys keep the old value. -/
def mergeSettings (s : Settings) (u : SettingsUpdate) : Settings :=
  { maxCacheSize := u.maxCacheSize.getD s.maxCacheSize
    cacheExpiry := u.cacheExpiry.getD s.cacheExpiry
    avatarSize := u.avatarSize.getD s.avatarSize
    enableFavicon := u.enableFavicon.getD s.enableFavicon
    enableLogoAPI := u.enableLogoAPI.getD s.enableLogoAPI
    enableGoogleFavicon := u.enableGoogleFavicon.getD s.enableGoogleFavicon
    enableFallbackService :=
      if u.enableFallbackService.isSome then u.enableFallbackService
      else s.enableFallbackService }

/-- The `type` field of an avatar descriptor. -/
inductive AvatarType where
  | favicon
  | companyLogo
  | googleFavicon
  | businessInitials
deriving DecidableEq, Repr

/-- The result object of the resolution chain. The network branches carry no
`initials` key, the generated-initials branch does. -/
structure AvatarDescriptor where
  url : String
  type : AvatarType
  domain : Option String
  size : Nat
  email : String
  initials : Option String
deriving DecidableEq, Repr

/-- The SVG template of `createBusinessInitials` after `.trim()`, with the
avatar size, the selected colors and the initials interpolated. -/
def buildInitialsSvg (size : Nat) (colors : ColorScheme) (initials : String) : String :=
  "<svg width=\"" ++ toString size ++ "\" height=\"" ++ toString size ++
  "\" viewBox=\"0 0 64 64\" xmlns=\"http://www.w3.org/2000/svg\">\n" ++
  "        <defs>\n" ++
  "          <linearGradient id=\"businessGrad\" x1=\"0%\" y1=\"0%\" x2=\"100%\" y2=\"100%\">\n" ++
  "            <stop offset=\"0%\" style=\"stop-color:" ++ colors.primary ++ ";stop-opacity:1\" />\n" ++
  "            <stop offset=\"100%\" style=\"stop-color:" ++ colors.secondary ++ ";stop-opacity:1\" />\n" ++
  "          </linearGradient>\n" ++
  "          <filter id=\"shadow\" x=\"-50%\" y=\"-50%\" width=\"200%\" height=\"200%\">\n" ++
  "            <feDropShadow dx=\"1\" dy=\"2\" stdDeviation=\"2\" flood-color=\"#000000\" flood-opacity=\"0.2\"/>\n" ++
  "          </filter>\n" ++
  "        </defs>\n" ++
  "        <circle cx=\"32\" cy=\"32\" r=\"30\" fill=\"url(#businessGrad)\" stroke=\"" ++ colors.border ++
  "\" stroke-width=\"1.5\" filter=\"url(#shadow)\"/>\n" ++
  "        <text x=\"32\" y=\"40\" text-anchor=\"middle\" fill=\"white\" font-family=\"-apple-system, BlinkMacSystemFont, \x27Segoe UI\x27, system-ui, sans-serif\" font-size=\"18\" font-weight=\"600\" letter-spacing=\"0.5px\">" ++
  initials ++ "</text>\n" ++
  "      </svg>"

/-- `createBusinessInitials(email, domain)`: initials, then colors (which
throws a `ReferenceError` when `domain` is falsy), then the SVG rendered as
a base64 data URI. -/
def createBusinessInitials (s : Settings) (email : String) (domain : Option String) :
    Except JsError AvatarDescriptor :=
  let initials := generateBusinessInitials email
  match getBusinessColors domain with
  | Except.error e => Except.error e
  | Except.ok colors =>
      let svg := buildInitialsSvg s.avatarSize colors initials
      Except.ok
        { url := "data:image/svg+xml;base64," ++ jsBtoa svg
          type := AvatarType.businessInitials
          domain := domain
          size := s.avatarSize
          email := email
          initials := some initials }

/-- The network oracle: for each URL, whether a metadata probe (HEAD fetch
with ok status and `image/*` content-type) succeeds. A failed fetch, a
non-2xx status, a timeout and a non-image content-type are all `false`. -/
structure Network where
  ok : String → Bool

/-- `validateImageUrl(url)`: probes the URL, returns a boolean, never
throws (the source catches every fetch error and returns `false`). -/
def validateImageUrl (net : Network) (url : String) : Bool :=
  net.ok url

/-- `getKnownBusinessFavicon(domain)`: the static table of well-known
domains. -/
def getKnownBusinessFavicon (domain : String) : Option String :=
  if domain = "gmail.com" then some "https://ssl.gstatic.com/ui/v1/icons/mail/rfr/gmail.ico"
  else if domain = "outlook.com" then some "https://outlook.live.com/favicon.ico"
  else if domain = "hotmail.com" then some "https://outlook.live.com/favicon.ico"
  else if domain = "yahoo.com" then some "https://s.yimg.com/rz/l/favicon.ico"
  else if domain = "microsoft.com" then some "https://www.microsoft.com/favicon.ico"
  else if domain = "google.com" then some "https://www.google.com/favicon.ico"
  else if domain = "apple.com" then some "https://www.apple.com/favicon.ico"
  else if domain = "amazon.com" then some "https://www.amazon.com/favicon.ico"
  else if domain = "salesforce.com" then some "https://c1.sfdcstatic.com/etc/designs/sfdc-www/dist/images/favicons/favicon-32x32.png"
  else none

/-- The ordered candidate favicon URLs probed by `getFaviconUrl`. -/
def faviconCandidates (domain : String) : List String :=
  [ "https://" ++ domain ++ "/favicon.ico"
  , "https://www." ++ domain ++ "/favicon.ico"
  , "https://" ++ domain ++ "/assets/favicon.ico"
  , "https://" ++ domain ++ "/images/favicon.ico"
  , "https://" ++ domain ++ "/favicon.png"
  , "https://" ++ domain ++ "/apple-touch-icon.png" ]

/-- The sequential probe loop of `getFaviconUrl`: the first candidate that
validates wins; if none does, the function throws. The second component
lists the URLs probed, in order. -/
def probeFirst (net : Network) (domain : String) :
    List String → Except JsError String × List String
  | [] => (Except.error (JsError.thrown ("No favicon found for " ++ domain)), [])
  | u :: rest =>
      if validateImageUrl net u then (Except.ok u, [u])
      else
        let r := probeFirst net domain rest
        (r.1, u :: r.2)

/-- `getFaviconUrl(domain)`: throws for a falsy domain; otherwise the
known-domain table short-circuits (no probe), else the candidate list is
probed in order. -/
def getFaviconUrl (net : Network) (domain : Option String) :
    Except JsError String × List String :=
  if jsFalsy domain then (Except.error (JsError.thrown "No domain provided"), [])
  else
    let d := jsShow domain
    match getKnownBusinessFavicon d with
    | some url => (Except.ok url, [])
    | none => probeFirst net d (faviconCandidates d)

/-- `getCompanyLogo(domain)`: throws for a falsy domain; otherwise HEAD-probes
the Clearbit logo URL and throws unless the response is ok with an image
content-type. -/
def getCompanyLogo (net : Network) (domain : Option String) :
    Except JsError String × List String :=
  if jsFalsy domain then (Except.error (JsError.thrown "No domain provided"), [])
  else
    let clearbitUrl := "https://logo.clearbit.com/" ++ jsShow domain
    if net.ok clearbitUrl then (Except.ok clearbitUrl, [clearbitUrl])
    else
      (Except.error (JsError.thrown ("Company logo not found for " ++ jsShow domain)), [clearbitUrl])

/-- Priority 1 of `getBusinessAvatar`: company favicon. Any throw from
`getFaviconUrl` is caught and the stage declines; a favicon URL that fails
the outer `validateImageUrl` also declines. -/
def tryFavicon (s : Settings) (net : Network) (email : String) (domain : Option String) :
    Option AvatarDescriptor × List String :=
  if s.enableFavicon then
    match getFaviconUrl net domain with
    | (Except.ok faviconUrl, ps) =>
        if validateImageUrl net faviconUrl then
          (some { url := faviconUrl, type := AvatarType.favicon, domain := domain,
                  size := s.avatarSize, email := email, initials := none },
           ps ++ [faviconUrl])
        else (none, ps ++ [faviconUrl])
    | (Except.error _, ps) => (none, ps)
  else (none, [])

/-- Priority 2 of `getBusinessAvatar`: logo API. Throws are caught, stage
declines on failure. -/
def tryLogoAPI (s : Settings) (net : Network) (email : String) (domain : Option String) :
    Option AvatarDescriptor × List String :=
  if s.enableLogoAPI then
    match getCompanyLogo net domain with
    | (Except.ok logoUrl, ps) =>
        if validateImageUrl net logoUrl then
          (some { url := logoUrl, type := AvatarType.companyLogo, domain := domain,
                  size := s.avatarSize, email := email, initials := none },
           ps ++ [logoUrl])
        else (none, ps ++ [logoUrl])
    | (Except.error _, ps) => (none, ps)
  else (none, [])

/-- Priority 3 of `getBusinessAvatar`: the Google favicon service. The URL
interpolates the domain (a null domain prints as `"null"`). -/
def tryGoogleFavicon (s : Settings) (net : Network) (email : String) (domain : Option String) :
    Option AvatarDescriptor × List String :=
  if s.enableGoogleFavicon then
    let googleFaviconUrl :=
      "https://www.google.com/s2/favicons?domain=" ++ jsShow domain ++ "&sz=" ++ toString s.avatarSize
    if validateImageUrl net googleFaviconUrl then
      (some { url := googleFaviconUrl, type := AvatarType.googleFavicon, domain := domain,
              size := s.avatarSize, email := email, initials := none },
       [googleFaviconUrl])
    else (none, [googleFaviconUrl])
  else (none, [])

/-- `getBusinessAvatar(email)`: the ordered short-circuiting chain, falling
back to `createBusinessInitials` when every network stage declines or is
disabled. The second component is every URL probed, in order. -/
def getBusinessAvatar (s : Settings) (net : Network) (email : String) :
    Except JsError AvatarDescriptor × List String :=
  let domain := extractDomain email
  match tryFavicon s net email domain with
  | (some d, ps) => (Except.ok d, ps)
  | (none, ps1) =>
      match tryLogoAPI s net email domain with
      | (some d, ps) => (Except.ok d, ps1 ++ ps)
      | (none, ps2) =>
          match tryGoogleFavicon s net email domain with
          | (some d, ps) => (Except.ok d, ps1 ++ ps2 ++ ps)
          | (none, ps3) => (createBusinessInitials s email domain, ps1 ++ ps2 ++ ps3)

/-- `fetchAvatar(email)`: delegates to the business avatar chain. -/
def fetchAvatar (s : Settings) (net : Network) (email : String) :
    Except JsError AvatarDescriptor × List String :=
  getBusinessAvatar s net email

/-- A network where every probe fails (offline / unreachable domains). -/
def netDown : Network := ⟨fun _ => false⟩

/-- A network where every probe succeeds. -/
def netUp : Network := ⟨fun _ => true⟩

/-- JS `Map.prototype.get` on an insertion-ordered association list. -/
def mapGet {α : Type} : List (String × α) → String → Option α
  | [], _ => none
  | (k, v) :: rest, key => if k = key then some v else mapGet rest key

/-- JS `Map.prototype.set`: replace in place when the key is present
(keeping its position in insertion order), otherwise append as newest. -/
def mapSet {α : Type} : List (String × α) → String → α → List (String × α)
  | [], key, v => [(key, v)]
  | (k, w) :: rest, key, v =>
      if k = key then (key, v) :: rest else (k, w) :: mapSet rest key v

/-- JS `Map.prototype.delete`: remove the entry for the key, if present. -/
def mapDelete {α : Type} : List (String × α) → String → List (String × α)
  | [], _ => []
  | (k, v) :: rest, key => if k = key then rest else (k, v) :: mapDelete rest key

/-- The keys of a map in insertion order (`Map.prototype.keys`). -/
def keysOf {α : Type} (m : List (String × α)) : List String :=
  m.map Prod.fst

/-- A cache entry: the stored descriptor plus its insertion timestamp. -/
structure CacheEntry where
  data : AvatarDescriptor
  timestamp : Int
deriving DecidableEq, Repr

/-- The mutable state of `EnhancedAvatarCardManager`: the LRU/TTL cache map,
the pending-request map (promise ids stand for the promise objects stored in
`pendingRequests`), the settings, and a counter supplying fresh promise
ids. -/
structure MgrState where
  cache : List (String × CacheEntry)
  pending : List (String × Nat)
  settings : Settings
  nextPromiseId : Nat
deriving DecidableEq, Repr

/-- The state of a freshly constructed manager. -/
def initialState : MgrState :=
  { cache := [], pending := [], settings := defaultSettings, nextPromiseId := 0 }

/-- JS whitespace for `String.prototype.trim` (ASCII fragment). -/
def isJsWhitespace (c : Char) : Bool :=
  c == ' ' || c == '\t' || c == '\n' || c == '\r' || c == '\x0b' || c == '\x0c'

/-- JS `s.trim()`: strip leading and trailing whitespace. -/
def jsTrim (s : String) : String :=
  String.mk (((s.toList.dropWhile isJsWhitespace).reverse.dropWhile isJsWhitespace).reverse)

/-- `email.toLowerCase().trim()` — the normalization applied by
`getAvatar`. -/
def normalizeEmail (email : String) : String :=
  jsTrim (jsToLower email)

/-- What a single `getAvatar(email)` call returns at its first suspension
point: `null` for falsy input, a cached descriptor on a fresh hit, the
in-flight promise when joining a pending resolution, or a newly started
resolution promise. -/
inductive GetOutcome where
  | nullOut : GetOutcome
  | hit : AvatarDescriptor → GetOutcome
  | joined : Nat → GetOutcome
  | started : Nat → GetOutcome
deriving DecidableEq, Repr

/-- The tail of `getAvatar` after the cache check: join an existing pending
promise, or create a fresh one and record it in `pendingRequests`
synchronously (same tick). -/
def startOrJoin (st : MgrState) (e : String) : GetOutcome × MgrState :=
  match mapGet st.pending e with
  | some pid => (GetOutcome.joined pid, st)
  | none =>
      let pid := st.nextPromiseId
      (GetOutcome.started pid,
       { st with pending := mapSet st.pending e pid, nextPromiseId := pid + 1 })

/-- The synchronous prefix of `getAvatar(email)` (everything before the
first `await`): falsy guard, normalization, TTL-checked cache lookup,
pending-request lookup, and registration of a new resolution. `now` is
`Date.now()`. -/
def getAvatarStart (st : MgrState) (email : Option String) (now : Int) :
    GetOutcome × MgrState :=
  if jsFalsy email then (GetOutcome.nullOut, st)
  else
    let e := normalizeEmail (jsShow email)
    match mapGet st.cache e with
    | some cached =>
        if now - cached.timestamp < st.settings.cacheExpiry then
          (GetOutcome.hit cached.data, st)
        else startOrJoin st e
    | none => startOrJoin st e

/-- `cacheAvatar(email, data)`: when the cache has reached
`maxCacheSize`, delete the first key in insertion order, then `set` the new
entry (in place if the key is present, else as newest). -/
def cacheAvatar (st : MgrState) (email : String) (data : AvatarDescriptor) (now : Int) :
    MgrState :=
  let cache :=
    if st.settings.maxCacheSize ≤ st.cache.length then
      match st.cache.head? with
      | some (firstKey, _) => mapDelete st.cache firstKey
      | none => st.cache
    else st.cache
  { st with cache := mapSet cache email { data := data, timestamp := now } }

/-- The continuation of the initiating `getAvatar` call once its resolution
promise fulfils: store the result via `cacheAvatar`, then remove the pending
entry (the `finally` clause) — one synchronous block. -/
def getAvatarSettle (st : MgrState) (e : String) (result : AvatarDescriptor) (now : Int) :
    MgrState :=
  let st1 := cacheAvatar st e result now
  { st1 with pending := mapDelete st1.pending e }

/-- The continuation of the initiating `getAvatar` call when its resolution
promise rejects: nothing is cached, but the `finally` clause still removes
the pending entry. -/
def getAvatarSettleErr (st : MgrState) (e : String) : MgrState :=
  { st with pending := mapDelete st.pending e }

/-- `updateSettings(newSettings)`: spread-merge over the current settings;
the cache and pending maps are not touched. -/
def updateSettings (st : MgrState) (u : SettingsUpdate) : MgrState :=
  { st with settings := mergeSettings st.settings u }

/-- `clearCache()`. -/
def clearCache (st : MgrState) : MgrState :=
  { st with cache := [] }

/-- A sequence of `getAvatar` calls for one raw address (all issued before
the first resolution settles), returning the outcome of each call and the
final state. -/
def runGets (st : MgrState) (raw : String) : List Int → List GetOutcome × MgrState
  | [] => ([], st)
  | t :: ts =>
      let r := getAvatarStart st (some raw) t
      let rest := runGets r.2 raw ts
      (r.1 :: rest.1, rest.2)

/-- How many of the outcomes started a fresh underlying resolution. -/
def countStarted (os : List GetOutcome) : Nat :=
  (os.filter fun o => match o with | GetOutcome.started _ => true | _ => false).length

/-- An abstract cache workload: an insertion (a resolution result being
stored) or a read (a `getAvatar` call). -/
inductive CacheOp where
  | insert : String → AvatarDescriptor → Int → CacheOp
  | read : Option String → Int → CacheOp
deriving Repr

/-- Run a workload against the manager state: insertions go through
`cacheAvatar`, reads through the synchronous prefix of `getAvatar`. -/
def runOps (st : MgrState) : List CacheOp → MgrState
  | [] => st
  | CacheOp.insert e d t :: ops => runOps (cacheAvatar st e d t) ops
  | CacheOp.read e t :: ops => runOps (getAvatarStart st e t).2 ops

/-- A plain business-initials style descriptor used as concrete test data. -/
def exDescriptor (e : String) : AvatarDescriptor :=
  { url := "u", type := AvatarType.businessInitials, domain := none,
    size := 32, email := e, initials := none }

/-- A manager whose cache holds at most two entries. -/
def smallState : MgrState :=
  { initialState with settings := { defaultSettings with maxCacheSize := 2 } }

/-- `smallState` after caching an entry for `a@x.com` at time 0. -/
def stA : MgrState := cacheAvatar smallState "a@x.com" (exDescriptor "a@x.com") 0

/-- `stA` after caching an entry for `b@x.com` at time 1. -/
def stAB : MgrState := cacheAvatar stA "b@x.com" (exDescriptor "b@x.com") 1

/-- The update of claim C3, using the option names the spec lists as
recognized: `enableFavicon=false, enableLogoAPI=false,
enableFallbackService=false`. -/
def specDisableUpdate : SettingsUpdate :=
  { enableFavicon := some false, enableLogoAPI := some false,
    enableFallbackService := some false }

/-- The update that actually disables all three network stages of the code:
the third stage is gated on `enableGoogleFavicon`. -/
def codeDisableUpdate : SettingsUpdate :=
  { enableFavicon := some false, enableLogoAPI := some false,
    enableGoogleFavicon := some false }

/-- The characters of a 1–2 letter uppercase-initials string, as the claim
states them: every character between `A` and `Z`, length 1 or 2. -/
def isOneToTwoUpperLetters (s : String) : Bool :=
  (s.length = 1 || s.length = 2) && s.toList.all (fun c => 'A' ≤ c && c ≤ 'Z')

section MapLemmas

variable {α : Type}

theorem mapGet_mapSet_self (m : List (String × α)) (k : String) (v : α) :
    mapGet (mapSet m k v) k = some v := by
  induction m with
  | nil => simp [mapSet, mapGet]
  | cons p rest ih =>
      obtain ⟨k0, w⟩ := p
      by_cases h : k0 = k
      · simp [mapSet, mapGet, h]
      · simp [mapSet, mapGet, h, ih]

theorem mapSet_absent (m : List (String × α)) (k : String) (v : α)
    (h : mapGet m k = none) : mapSet m k v = m ++ [(k, v)] := by
  induction m with
  | nil => simp [mapSet]
  | cons p rest ih =>
      obtain ⟨k0, w⟩ := p
      by_cases hk : k0 = k
      · simp [mapGet, hk] at h
      · simp [mapGet, hk] at h
        simp [mapSet, hk, ih h]

theorem mapDelete_mapSet_absent (m : List (String × α)) (k : String) (v : α)
    (h : mapGet m k = none) : mapDelete (mapSet m k v) k = m := by
  induction m with
  | nil => simp [mapSet, mapDelete]
  | cons p rest ih =>
      obtain ⟨k0, w⟩ := p
      by_cases hk : k0 = k
      · simp [mapGet, hk] at h
      · simp [mapGet, hk] at h
        simp [mapSet, mapDelete, hk, ih h]

theorem keysOf_mapSet_present (m : List (String × α)) (k : String) (v w : α)
    (h : mapGet m k = some w) : keysOf (mapSet m k v) = keysOf m := by
  induction m with
  | nil => simp [mapGet] at h
  | cons p rest ih =>
      obtain ⟨k0, w0⟩ := p
      by_cases hk : k0 = k
      · simp [mapSet, keysOf, hk]
      · simp [mapGet, hk] at h
        simp [mapSet, keysOf, hk] at ih ⊢
        exact ih h

theorem length_mapSet_le (m : List (String × α)) (k : String) (v : α) :
    (mapSet m k v).length ≤ m.length + 1 := by
  induction m with
  | nil => simp [mapSet]
  | cons p rest ih =>
      obtain ⟨k0, w⟩ := p
      by_cases hk : k0 = k
      · simp [mapSet, hk]
      · simp [mapSet, hk]
        exact ih

end MapLemmas

/-- Claim C1: the spec demands that the terminal GeneratedInitials branch
cannot fail, even when the derived domain is absent. The code violates this:
`getBusinessColors` evaluates the out-of-scope identifier `email` whenever
`domain` is falsy, so for an address whose domain cannot be derived (e.g.
`"a@b"`, where the regex of `extractDomain` finds no `.`-containing label)
`createBusinessInitials` throws a `ReferenceError` instead of returning a
descriptor, and the whole chain rejects when every network stage declines. -/
theorem generatedInitials_branch_throws_on_absent_domain :
    extractDomain "a@b" = none ∧
    createBusinessInitials defaultSettings "a@b" none = Except.error JsError.referenceError ∧
    (getBusinessAvatar defaultSettings netDown "a@b").1 = Except.error JsError.referenceError := by
  refine ⟨by decide, rfl, rfl⟩

/-- Claim C8: `updateSettings` merges the new settings object but leaves the
cache map (keys, stored descriptors, timestamps) and the pending map
untouched, for every state and every update. -/
theorem updateSettings_preserves_cache_and_pending (st : MgrState) (u : SettingsUpdate) :
    (updateSettings st u).cache = st.cache ∧ (updateSettings st u).pending = st.pending :=
  ⟨rfl, rfl⟩

/-- Claim C9: for falsy input (null, undefined, empty string) `getAvatar`
returns `null` immediately and the state — cache, pending table, promise
counter — is completely unchanged: no resolution is started. -/
theorem getAvatar_returns_null_for_falsy_input (st : MgrState) (email : Option String)
    (now : Int) (h : jsFalsy email = true) :
    getAvatarStart st email now = (GetOutcome.nullOut, st) := by
  unfold getAvatarStart
  simp [h]

/-- Witness for C9 at the concrete falsy inputs `null` and `""`. -/
theorem getAvatar_returns_null_for_falsy_input_witness :
    getAvatarStart initialState none 0 = (GetOutcome.nullOut, initialState) ∧
    getAvatarStart initialState (some "") 7 = (GetOutcome.nullOut, initialState) :=
  ⟨getAvatar_returns_null_for_falsy_input initialState none 0 (by decide),
   getAvatar_returns_null_for_falsy_input initialState (some "") 7 (by decide)⟩

/-- Claim C2, counterexample: the claim says a malformed address such as
`"not-an-email"` is rejected with `InvalidAddress` and the resolver chain is
never invoked for it. The code has no such validation: `getAvatar` only
rejects falsy input, and for `"not-an-email"` (whose domain the
`extractDomain` regex cannot derive) it registers a pending entry and starts
an underlying resolution — `GetOutcome.started 0` is the freshly created
`fetchAvatar` promise. -/
theorem resolver_invoked_for_invalid_address :
    extractDomain "not-an-email" = none ∧
    (getAvatarStart initialState (some "not-an-email") 0).1 = GetOutcome.started 0 ∧
    (getAvatarStart initialState (some "not-an-email") 0).2.pending = [("not-an-email", 0)] := by
  refine ⟨by decide, by decide, by decide⟩

/-- Shared helper: a non-falsy call with no fresh cache entry and no pending
entry registers and starts a fresh resolution. -/
theorem getAvatarStart_miss_start (st : MgrState) (raw : String) (now : Int)
    (hraw : jsFalsy (some raw) = false)
    (hcache : mapGet st.cache (normalizeEmail raw) = none)
    (hpending : mapGet st.pending (normalizeEmail raw) = none) :
    getAvatarStart st (some raw) now =
      (GetOutcome.started st.nextPromiseId,
       { st with pending := mapSet st.pending (normalizeEmail raw) st.nextPromiseId,
                 nextPromiseId := st.nextPromiseId + 1 }) := by
  unfold getAvatarStart
  simp [hraw, jsShow, hcache, startOrJoin, hpending]

/-- Claim C2, amended: only falsy input short-circuits; every non-empty raw
string — malformed or not — is normalized and handed to the resolver chain.
Whenever the normalized string has no fresh cache entry and no pending
entry, `getAvatar` starts an underlying resolution for it. -/
theorem nonempty_input_always_reaches_resolver (st : MgrState) (raw : String) (now : Int)
    (hraw : jsFalsy (some raw) = false)
    (hcache : mapGet st.cache (normalizeEmail raw) = none)
    (hpending : mapGet st.pending (normalizeEmail raw) = none) :
    getAvatarStart st (some raw) now =
      (GetOutcome.started st.nextPromiseId,
       { st with pending := mapSet st.pending (normalizeEmail raw) st.nextPromiseId,
                 nextPromiseId := st.nextPromiseId + 1 }) :=
  getAvatarStart_miss_start st raw now hraw hcache hpending

/-- Witness for the amended C2 at the concrete invalid input
`"not-an-email"` in the initial state. -/
theorem nonempty_input_always_reaches_resolver_witness :
    jsFalsy (some "not-an-email") = false ∧
    mapGet initialState.cache (normalizeEmail "not-an-email") = none ∧
    mapGet initialState.pending (normalizeEmail "not-an-email") = none ∧
    getAvatarStart initialState (some "not-an-email") 5 =
      (GetOutcome.started initialState.nextPromiseId,
       { initialState with
           pending := mapSet initialState.pending (normalizeEmail "not-an-email")
             initialState.nextPromiseId,
           nextPromiseId := initialState.nextPromiseId + 1 }) :=
  ⟨by decide, by decide, by decide,
   nonempty_input_always_reaches_resolver initialState "not-an-email" 5
     (by decide) (by decide) (by decide)⟩

/-- Claim C3, counterexample: after updating the configuration with the
spec's "recognized" names (`enableFallbackService=false` among them), the
code's Google-favicon stage is still enabled — `enableFallbackService` is
not an option the code reads. With a reachable domain the very next
resolution probes the network and returns a google-favicon descriptor, not
generated initials. -/
theorem spec_flag_names_do_not_disable_google_stage :
    (updateSettings initialState specDisableUpdate).settings.enableGoogleFavicon = true ∧
    fetchAvatar (updateSettings initialState specDisableUpdate).settings netUp "john@acme.com" =
      (Except.ok
        { url := "https://www.google.com/s2/favicons?domain=acme.com&sz=32"
          type := AvatarType.googleFavicon
          domain := some "acme.com"
          size := 32
          email := "john@acme.com"
          initials := none },
       ["https://www.google.com/s2/favicons?domain=acme.com&sz=32"]) := by
  refine ⟨by decide, rfl⟩

/-- Claim C3, amended: the code's recognized stage switches are
`enableFavicon`, `enableLogoAPI` and `enableGoogleFavicon`. After an update
that sets those three to `false`, every subsequent resolution goes straight
to the generated-initials terminal branch with no network URL probed,
regardless of the network oracle (domain reachability). -/
theorem all_stages_disabled_goes_straight_to_initials
    (st : MgrState) (u : SettingsUpdate) (net : Network) (email : String)
    (hf : u.enableFavicon = some false)
    (hl : u.enableLogoAPI = some false)
    (hg : u.enableGoogleFavicon = some false) :
    fetchAvatar (updateSettings st u).settings net email =
      (createBusinessInitials (updateSettings st u).settings email (extractDomain email), []) := by
  unfold fetchAvatar getBusinessAvatar tryFavicon tryLogoAPI tryGoogleFavicon
  simp [updateSettings, mergeSettings, hf, hl, hg]

/-- Witness for the amended C3: with all three code-recognized switches off,
resolving `john@acme.com` over a fully reachable network still produces the
initials descriptor and probes nothing. -/
theorem all_stages_disabled_goes_straight_to_initials_witness :
    codeDisableUpdate.enableFavicon = some false ∧
    codeDisableUpdate.enableLogoAPI = some false ∧
    codeDisableUpdate.enableGoogleFavicon = some false ∧
    fetchAvatar (updateSettings initialState codeDisableUpdate).settings netUp "john@acme.com" =
      (createBusinessInitials (updateSettings initialState codeDisableUpdate).settings
        "john@acme.com" (extractDomain "john@acme.com"), []) :=
  ⟨rfl, rfl, rfl,
   all_stages_disabled_goes_straight_to_initials initialState codeDisableUpdate netUp
     "john@acme.com" rfl rfl rfl⟩

/-- Claim C6: for an entry cached at `t0` under TTL `T`, a `get` at
`t0 + T - 1` is a hit returning the stored descriptor with the state (hence
the pending table) untouched — no resolution — while a `get` at `t0 + T + 1`
misses and starts a re-resolution. -/
theorem ttl_hit_at_expiry_minus_one_miss_after (st : MgrState) (raw : String)
    (entry : CacheEntry)
    (hraw : jsFalsy (some raw) = false)
    (hcache : mapGet st.cache (normalizeEmail raw) = some entry)
    (hpending : mapGet st.pending (normalizeEmail raw) = none) :
    getAvatarStart st (some raw) (entry.timestamp + st.settings.cacheExpiry - 1)
      = (GetOutcome.hit entry.data, st) ∧
    (getAvatarStart st (some raw) (entry.timestamp + st.settings.cacheExpiry + 1)).1
      = GetOutcome.started st.nextPromiseId := by
  constructor
  · have hfresh : entry.timestamp + st.settings.cacheExpiry - 1 - entry.timestamp
        < st.settings.cacheExpiry := by omega
    unfold getAvatarStart
    simp [hraw, jsShow, hcache, hfresh]
  · have hstale : ¬(entry.timestamp + st.settings.cacheExpiry + 1 - entry.timestamp
        < st.settings.cacheExpiry) := by omega
    unfold getAvatarStart
    simp [hraw, jsShow, hcache, hstale, startOrJoin, hpending]

/-- Witness for C6: an entry cached for `a@x.com` at time 0 under the
default 24-hour TTL is a hit at `86400000 - 1` and a re-resolution miss at
`86400000 + 1`. -/
theorem ttl_hit_at_expiry_minus_one_miss_after_witness :
    jsFalsy (some "a@x.com") = false ∧
    mapGet stA.cache (normalizeEmail "a@x.com")
      = some { data := exDescriptor "a@x.com", timestamp := 0 } ∧
    mapGet stA.pending (normalizeEmail "a@x.com") = none ∧
    getAvatarStart stA (some "a@x.com")
        (({ data := exDescriptor "a@x.com", timestamp := 0 } : CacheEntry).timestamp
          + stA.settings.cacheExpiry - 1)
      = (GetOutcome.hit (exDescriptor "a@x.com"), stA) ∧
    (getAvatarStart stA (some "a@x.com")
        (({ data := exDescriptor "a@x.com", timestamp := 0 } : CacheEntry).timestamp
          + stA.settings.cacheExpiry + 1)).1
      = GetOutcome.started stA.nextPromiseId := by
  refine ⟨by decide, by decide, by decide, ?_, ?_⟩
  · exact (ttl_hit_at_expiry_minus_one_miss_after stA "a@x.com"
      { data := exDescriptor "a@x.com", timestamp := 0 }
      (by decide) (by decide) (by decide)).1
  · exact (ttl_hit_at_expiry_minus_one_miss_after stA "a@x.com"
      { data := exDescriptor "a@x.com", timestamp := 0 }
      (by decide) (by decide) (by decide)).2

/-- Helper: while a resolution for the key is pending and the cache still
misses, every further `get` call joins the same promise and leaves the state
unchanged. -/
theorem runGets_all_join (raw : String) (pid : Nat) (ts : List Int) :
    ∀ (st : MgrState),
    jsFalsy (some raw) = false →
    mapGet st.cache (normalizeEmail raw) = none →
    mapGet st.pending (normalizeEmail raw) = some pid →
    runGets st raw ts = (ts.map (fun _ => GetOutcome.joined pid), st) := by
  induction ts with
  | nil => intro st _ _ _; rfl
  | cons t ts ih =>
      intro st hraw hcache hpending
      have hstep : getAvatarStart st (some raw) t = (GetOutcome.joined pid, st) := by
        unfold getAvatarStart
        simp [hraw, jsShow, hcache, startOrJoin, hpending]
      simp [runGets, hstep, ih st hraw hcache hpending]

/-- Helper: joined outcomes start no resolution. -/
theorem countStarted_map_joined (ts : List Int) (pid : Nat) :
    countStarted (ts.map (fun _ => GetOutcome.joined pid)) = 0 := by
  induction ts with
  | nil => rfl
  | cons t ts ih => simp [countStarted, List.filter] at ih ⊢

/-- Claim C4: N `get` calls for the same address, all issued before the
first resolution settles, produce exactly one `started` promise (one
underlying resolution); every later call joins that same promise id, the
pending table holds exactly that one entry for the address, and the entry is
gone after the settling continuation runs — whether the resolution fulfils
(`getAvatarSettle`) or rejects (`getAvatarSettleErr`). -/
theorem concurrent_gets_share_single_resolution
    (st : MgrState) (raw : String) (t : Int) (ts : List Int)
    (r : AvatarDescriptor) (tr : Int)
    (hraw : jsFalsy (some raw) = false)
    (hcache : mapGet st.cache (normalizeEmail raw) = none)
    (hpending : mapGet st.pending (normalizeEmail raw) = none) :
    runGets st raw (t :: ts) =
      (GetOutcome.started st.nextPromiseId ::
         ts.map (fun _ => GetOutcome.joined st.nextPromiseId),
       { st with pending := mapSet st.pending (normalizeEmail raw) st.nextPromiseId,
                 nextPromiseId := st.nextPromiseId + 1 }) ∧
    countStarted (runGets st raw (t :: ts)).1 = 1 ∧
    mapGet (runGets st raw (t :: ts)).2.pending (normalizeEmail raw)
      = some st.nextPromiseId ∧
    mapGet (getAvatarSettle (runGets st raw (t :: ts)).2 (normalizeEmail raw) r tr).pending
      (normalizeEmail raw) = none ∧
    mapGet (getAvatarSettleErr (runGets st raw (t :: ts)).2 (normalizeEmail raw)).pending
      (normalizeEmail raw) = none := by
  have hfirst := getAvatarStart_miss_start st raw t hraw hcache hpending
  set e := normalizeEmail raw with he
  set pid := st.nextPromiseId with hpid
  set st1 : MgrState :=
    { st with pending := mapSet st.pending e pid, nextPromiseId := pid + 1 } with hst1
  have hjoin : runGets st1 raw ts = (ts.map (fun _ => GetOutcome.joined pid), st1) :=
    runGets_all_join raw pid ts st1 hraw hcache (mapGet_mapSet_self st.pending e pid)
  have hrun : runGets st raw (t :: ts) =
      (GetOutcome.started pid :: ts.map (fun _ => GetOutcome.joined pid), st1) := by
    simp [runGets, hfirst, hjoin]
  refine ⟨hrun, ?_, ?_, ?_, ?_⟩
  · rw [hrun]
    simp [countStarted, List.filter, countStarted_map_joined ts pid]
  · rw [hrun]
    exact mapGet_mapSet_self st.pending e pid
  · rw [hrun]
    show mapGet (mapDelete (mapSet st.pending e pid) e) e = none
    rw [mapDelete_mapSet_absent st.pending e pid hpending]
    exact hpending
  · rw [hrun]
    show mapGet (mapDelete (mapSet st.pending e pid) e) e = none
    rw [mapDelete_mapSet_absent st.pending e pid hpending]
    exact hpending

/-- Witness for C4: three concurrent `get` calls for `a@x.com` from the
fresh state trigger exactly one resolution, and settling removes the pending
entry. -/
theorem concurrent_gets_share_single_resolution_witness :
    jsFalsy (some "a@x.com") = false ∧
    mapGet initialState.cache (normalizeEmail "a@x.com") = none ∧
    mapGet initialState.pending (normalizeEmail "a@x.com") = none ∧
    countStarted (runGets initialState "a@x.com" [0, 1, 2]).1 = 1 ∧
    mapGet (getAvatarSettle (runGets initialState "a@x.com" [0, 1, 2]).2
        (normalizeEmail "a@x.com") (exDescriptor "a@x.com") 3).pending
      (normalizeEmail "a@x.com") = none := by
  refine ⟨by decide, by decide, by decide, ?_, ?_⟩
  · exact (concurrent_gets_share_single_resolution initialState "a@x.com" 0 [1, 2]
      (exDescriptor "a@x.com") 3 (by decide) (by decide) (by decide)).2.1
  · exact (concurrent_gets_share_single_resolution initialState "a@x.com" 0 [1, 2]
      (exDescriptor "a@x.com") 3 (by decide) (by decide) (by decide)).2.2.2.1

/-- Helper: `charAt(0)` yields at most one character. -/
theorem jsCharAt0_length_le (s : String) : (jsCharAt0 s).length ≤ 1 := by
  unfold jsCharAt0
  cases s.toList with
  | nil => exact Nat.zero_le 1
  | cons c rest => exact Nat.le_refl 1

/-- Helper: uppercasing preserves length. -/
theorem jsToUpper_length (s : String) : (jsToUpper s).length = s.length := by
  unfold jsToUpper
  show (s.toList.map Char.toUpper).length = s.length
  rw [List.length_map]
  rfl

/-- Helper: length of a one-element join. -/
theorem join1_length (x : String) : (String.join [x]).length = x.length := by
  show ("" ++ x).length = x.length
  rw [String.length_append]
  have h0 : ("" : String).length = 0 := rfl
  omega

/-- Helper: length of a two-element join. -/
theorem join2_length (x y : String) : (String.join [x, y]).length = x.length + y.length := by
  show (("" ++ x) ++ y).length = x.length + y.length
  rw [String.length_append, String.length_append]
  have h0 : ("" : String).length = 0 := rfl
  omega

/-- Helper: joining the per-segment first letters of at most the first two
segments yields at most two characters. -/
theorem initialsJoin_length_le (parts : List String) :
    (String.join ((parts.take 2).map (fun part => jsToUpper (jsCharAt0 part)))).length ≤ 2 := by
  match parts with
  | [] => exact Nat.zero_le 2
  | [a] =>
      show (String.join [jsToUpper (jsCharAt0 a)]).length ≤ 2
      rw [join1_length, jsToUpper_length]
      have := jsCharAt0_length_le a
      omega
  | a :: b :: rest =>
      show (String.join [jsToUpper (jsCharAt0 a), jsToUpper (jsCharAt0 b)]).length ≤ 2
      rw [join2_length, jsToUpper_length, jsToUpper_length]
      have ha := jsCharAt0_length_le a
      have hb := jsCharAt0_length_le b
      omega

/-- Helper: the generated initials never exceed two characters. -/
theorem generateBusinessInitials_length_le (email : String) :
    (generateBusinessInitials email).length ≤ 2 := by
  unfold generateBusinessInitials
  simp only []
  split_ifs with h1 h2 h3
  · exact initialsJoin_length_le (jsSplit ((jsSplit email '@').headD "") '.')
  · exact initialsJoin_length_le (jsSplit ((jsSplit email '@').headD "") '-')
  · rw [jsToUpper_length]
    exact (((jsSplit email '@').headD "").toList).length_take_le 2
  · show (String.join [jsToUpper (jsCharAt0 ((jsSplit email '@').headD "")),
      jsToUpper (jsCharAt0 ((jsSplit email '@').headD ""))]).length ≤ 2
    rw [join2_length, jsToUpper_length]
    have := jsCharAt0_length_le ((jsSplit email '@').headD "")
    omega

/-- Claim C7, counterexample: the claim says the result always consists of
1–2 uppercase LETTERS. For the canonical address `"42@x.com"` the algorithm
produces `"42"` — two characters, neither of them a letter (and for
`"@x.com"`, whose local part is empty, it produces `""`, zero characters). -/
theorem initials_can_be_nonletter_or_empty :
    generateBusinessInitials "42@x.com" = "42" ∧
    isOneToTwoUpperLetters "42" = false ∧
    generateBusinessInitials "@x.com" = "" := by
  refine ⟨by decide, by decide, by decide⟩

/-- Claim C7, amended: the generated initials follow the stated
segment-based algorithm — the four documented examples hold — and the result
consists of at most two characters, the uppercased characters drawn from the
local part; those characters are uppercase letters only when the underlying
local-part characters are alphabetic, and the result can be empty for an
empty local part. -/
theorem initials_examples_and_at_most_two_chars :
    generateBusinessInitials "john.doe@x.com" = "JD" ∧
    generateBusinessInitials "jan-kowalski@x.com" = "JK" ∧
    generateBusinessInitials "al@x.com" = "AL" ∧
    generateBusinessInitials "a@x.com" = "AA" ∧
    ∀ email : String, (generateBusinessInitials email).length ≤ 2 :=
  ⟨by decide, by decide, by decide, by decide,
   fun email => generateBusinessInitials_length_le email⟩

/-- Helper: the synchronous prefix of `getAvatar` never modifies the cache
map or the settings (only the pending table and the promise counter). -/
theorem getAvatarStart_state (st : MgrState) (email : Option String) (t : Int) :
    (getAvatarStart st email t).2.cache = st.cache ∧
    (getAvatarStart st email t).2.settings = st.settings := by
  unfold getAvatarStart
  by_cases hf : jsFalsy email
  · simp [hf]
  · simp only [hf, Bool.false_eq_true, if_false]
    rcases hc : mapGet st.cache (normalizeEmail (jsShow email)) with _ | entry
    · unfold startOrJoin
      rcases hp : mapGet st.pending (normalizeEmail (jsShow email)) with _ | pid <;> simp [hp]
    · simp only []
      split_ifs with hfresh
      · exact ⟨rfl, rfl⟩
      · unfold startOrJoin
        rcases hp : mapGet st.pending (normalizeEmail (jsShow email)) with _ | pid <;> simp [hp]

/-- Helper: a `cacheAvatar` insertion keeps the cache within
`maxCacheSize`, provided the bound held before and the bound is positive. -/
theorem cacheAvatar_length_le (st : MgrState) (e : String) (d : AvatarDescriptor) (t : Int)
    (hmax : 1 ≤ st.settings.maxCacheSize)
    (hlen : st.cache.length ≤ st.settings.maxCacheSize) :
    (cacheAvatar st e d t).cache.length ≤ st.settings.maxCacheSize := by
  have hcache : (cacheAvatar st e d t).cache = mapSet
      (if st.settings.maxCacheSize ≤ st.cache.length then
        match st.cache.head? with
        | some (k, _) => mapDelete st.cache k
        | none => st.cache
       else st.cache) e { data := d, timestamp := t } := rfl
  rw [hcache]
  by_cases hfull : st.settings.maxCacheSize ≤ st.cache.length
  · rw [if_pos hfull]
    cases hcc : st.cache with
    | nil =>
        rw [hcc] at hfull
        simp at hfull
        omega
    | cons p rest =>
        obtain ⟨k0, v0⟩ := p
        have hdel : mapDelete ((k0, v0) :: rest) k0 = rest := by simp [mapDelete]
        simp only [List.head?, hdel]
        have h1 := length_mapSet_le rest e ({ data := d, timestamp := t } : CacheEntry)
        have h2 : rest.length + 1 ≤ st.settings.maxCacheSize := by
          rw [hcc] at hlen
          simpa using hlen
        omega
  · rw [if_neg hfull]
    have h1 := length_mapSet_le st.cache e ({ data := d, timestamp := t } : CacheEntry)
    omega

/-- Helper: the capacity bound is preserved along any workload of
insertions and reads, and the settings never change along the way. -/
theorem runOps_invariant (ops : List CacheOp) :
    ∀ st : MgrState, 1 ≤ st.settings.maxCacheSize →
    st.cache.length ≤ st.settings.maxCacheSize →
    (runOps st ops).cache.length ≤ st.settings.maxCacheSize ∧
    (runOps st ops).settings = st.settings := by
  induction ops with
  | nil => intro st _ h2; exact ⟨h2, rfl⟩
  | cons op ops ih =>
      intro st h1 h2
      cases op with
      | insert e d t =>
          exact ih (cacheAvatar st e d t) h1 (cacheAvatar_length_le st e d t h1 h2)
      | read e t =>
          have hc := (getAvatarStart_state st e t).1
          have hs := (getAvatarStart_state st e t).2
          have h1x : 1 ≤ (getAvatarStart st e t).2.settings.maxCacheSize := by
            rw [hs]; exact h1
          have h2x : (getAvatarStart st e t).2.cache.length
              ≤ (getAvatarStart st e t).2.settings.maxCacheSize := by
            rw [hc, hs]; exact h2
          have hres := ih (getAvatarStart st e t).2 h1x h2x
          refine ⟨?_, ?_⟩
          · have := hres.1
            rw [hs] at this
            exact this
          · exact hres.2.trans hs

/-- Claim C5, counterexample: the claim says the entry evicted at capacity
is the oldest UNACCESSED one. In a capacity-2 cache holding `a@x.com`
(older) and `b@x.com`, a read of `a@x.com` hits the cache (so `a` is the
accessed entry and `b` the oldest unaccessed one); the next insertion at
capacity nevertheless evicts `a` — reads never promote an entry, eviction is
purely by insertion order — while the unaccessed `b` survives. -/
theorem accessed_oldest_entry_still_evicted :
    (getAvatarStart stAB (some "a@x.com") 2).1 = GetOutcome.hit (exDescriptor "a@x.com") ∧
    mapGet (cacheAvatar (getAvatarStart stAB (some "a@x.com") 2).2
        "c@x.com" (exDescriptor "c@x.com") 3).cache "a@x.com" = none ∧
    mapGet (cacheAvatar (getAvatarStart stAB (some "a@x.com") 2).2
        "c@x.com" (exDescriptor "c@x.com") 3).cache "b@x.com"
      = some { data := exDescriptor "b@x.com", timestamp := 1 } := by
  refine ⟨by decide, by decide, by decide⟩

/-- Claim C5, amended: along any workload of insertions and reads the cache
size never exceeds `maxCacheSize` (positive bound assumed, as the settings
contract requires `int>0`); and when an insertion of a NEW key occurs at
capacity, the single entry evicted is the head of the insertion order — the
oldest-inserted entry, regardless of which entries were accessed. -/
theorem cache_bounded_and_evicts_insertion_order :
    (∀ (st : MgrState) (ops : List CacheOp),
       1 ≤ st.settings.maxCacheSize →
       st.cache.length ≤ st.settings.maxCacheSize →
       (runOps st ops).cache.length ≤ st.settings.maxCacheSize) ∧
    (∀ (st : MgrState) (k : String) (d : AvatarDescriptor) (t : Int),
       st.settings.maxCacheSize ≤ st.cache.length →
       mapGet st.cache k = none →
       keysOf (cacheAvatar st k d t).cache = (keysOf st.cache).tail ++ [k]) := by
  constructor
  · intro st ops h1 h2
    exact (runOps_invariant ops st h1 h2).1
  · intro st k d t hfull habsent
    have hcache : (cacheAvatar st k d t).cache = mapSet
        (if st.settings.maxCacheSize ≤ st.cache.length then
          match st.cache.head? with
          | some (k0, _) => mapDelete st.cache k0
          | none => st.cache
         else st.cache) k { data := d, timestamp := t } := rfl
    rw [hcache, if_pos hfull]
    cases hcc : st.cache with
    | nil =>
        simp [List.head?, mapSet, keysOf]
    | cons p rest =>
        obtain ⟨k0, v0⟩ := p
        rw [hcc] at habsent
        have hk0 : ¬(k0 = k) := by
          intro h
          rw [mapGet, if_pos h] at habsent
          exact Option.noConfusion habsent
        have hrest : mapGet rest k = none := by
          rw [mapGet, if_neg hk0] at habsent
          exact habsent
        have hdel : mapDelete ((k0, v0) :: rest) k0 = rest := by simp [mapDelete]
        simp only [List.head?, hdel]
        rw [mapSet_absent rest k _ hrest]
        simp [keysOf]

/-- Witness for the amended C5: three distinct insertions into a fresh
capacity-2 cache stay within the bound, and inserting `c@x.com` into the
full `[a@x.com, b@x.com]` cache evicts exactly the head `a@x.com`. -/
theorem cache_bounded_and_evicts_insertion_order_witness :
    1 ≤ smallState.settings.maxCacheSize ∧
    smallState.cache.length ≤ smallState.settings.maxCacheSize ∧
    (runOps smallState
      [CacheOp.insert "a@x.com" (exDescriptor "a@x.com") 0,
       CacheOp.insert "b@x.com" (exDescriptor "b@x.com") 1,
       CacheOp.insert "c@x.com" (exDescriptor "c@x.com") 2]).cache.length
      ≤ smallState.settings.maxCacheSize ∧
    stAB.settings.maxCacheSize ≤ stAB.cache.length ∧
    mapGet stAB.cache "c@x.com" = none ∧
    keysOf (cacheAvatar stAB "c@x.com" (exDescriptor "c@x.com") 3).cache
      = (keysOf stAB.cache).tail ++ ["c@x.com"] := by
  refine ⟨by decide, by decide, ?_, by decide, by decide, ?_⟩
  · exact cache_bounded_and_evicts_insertion_order.1 smallState
      [CacheOp.insert "a@x.com" (exDescriptor "a@x.com") 0,
       CacheOp.insert "b@x.com" (exDescriptor "b@x.com") 1,
       CacheOp.insert "c@x.com" (exDescriptor "c@x.com") 2] (by decide) (by decide)
  · exact cache_bounded_and_evicts_insertion_order.2 stAB "c@x.com"
      (exDescriptor "c@x.com") 3 (by decide) (by decide)

/-- Claim C10, counterexample: the claim says a refresh never changes the
key's position in the eviction order. But when the cache is AT capacity,
`cacheAvatar` first evicts the head key and then re-inserts: refreshing the
oldest key `a@x.com` of the full `[a@x.com, b@x.com]` cache deletes it and
appends it at the back — the refreshed entry becomes the newest and is now
evicted last, not as early as the original would have been. -/
theorem refresh_of_oldest_at_capacity_becomes_newest :
    mapGet stAB.cache "a@x.com" = some { data := exDescriptor "a@x.com", timestamp := 0 } ∧
    keysOf stAB.cache = ["a@x.com", "b@x.com"] ∧
    keysOf (cacheAvatar stAB "a@x.com" (exDescriptor "a@x.com") 5).cache
      = ["b@x.com", "a@x.com"] := by
  refine ⟨by decide, by decide, by decide⟩

/-- Claim C10, amended: while the cache is below capacity, re-caching an
address already present replaces the stored entry in place — the key list
(and hence the key's position in the insertion/eviction order) is unchanged
and the entry now carries the new descriptor and timestamp. At capacity the
head key is evicted first, so refreshing the current head re-inserts it as
the newest entry instead. -/
theorem refresh_below_capacity_keeps_position
    (st : MgrState) (k : String) (d : AvatarDescriptor) (t : Int) (entry : CacheEntry)
    (hmem : mapGet st.cache k = some entry)
    (hroom : st.cache.length < st.settings.maxCacheSize) :
    keysOf (cacheAvatar st k d t).cache = keysOf st.cache ∧
    mapGet (cacheAvatar st k d t).cache k = some { data := d, timestamp := t } := by
  have hnot : ¬ st.settings.maxCacheSize ≤ st.cache.length := by omega
  have hcache : (cacheAvatar st k d t).cache
      = mapSet st.cache k { data := d, timestamp := t } := by
    unfold cacheAvatar
    simp [hnot]
  rw [hcache]
  exact ⟨keysOf_mapSet_present st.cache k _ entry hmem,
         mapGet_mapSet_self st.cache k _⟩

/-- Witness for the amended C10: refreshing `a@x.com` in the one-entry,
capacity-2 cache keeps its position and stores the new timestamp. -/
theorem refresh_below_capacity_keeps_position_witness :
    mapGet stA.cache "a@x.com" = some { data := exDescriptor "a@x.com", timestamp := 0 } ∧
    stA.cache.length < stA.settings.maxCacheSize ∧
    (keysOf (cacheAvatar stA "a@x.com" (exDescriptor "a@x.com") 9).cache = keysOf stA.cache ∧
     mapGet (cacheAvatar stA "a@x.com" (exDescriptor "a@x.com") 9).cache "a@x.com"
       = some { data := exDescriptor "a@x.com", timestamp := 9 }) :=
  ⟨by decide, by decide,
   refresh_below_capacity_keeps_position stA "a@x.com" (exDescriptor "a@x.com") 9
     { data := exDescriptor "a@x.com", timestamp := 0 } (by decide) (by decide)⟩
